import Mathlib

/-!
Verification of the `trop_seed` configuration-file loader (`src/lib/index.js`).

The development shallowly embeds the JavaScript source: JavaScript values are
the inductive `JsValue`; the filesystem, the comment-tolerant JSON parser and
the JSON-schema engine are external collaborators, represented by an explicit
environment `Env` of oracles (spec section 6 fixes their consumed interface);
exceptions become `Except JsError`.  Arrays are containers tagged `isArray`
whose elements sit at decimal string keys, matching JavaScript property
access.  Each definition follows the function of the same name in
`src/lib/index.js`.
-/

set_option maxHeartbeats 1000000

namespace TropSeed

/-- JavaScript runtime values, as far as the loader observes them.  Numbers
are modelled as integers (every number the loader manipulates is one). -/
inductive JsValue where
  | undefined
  | null
  | bool (b : Bool)
  | num (n : Int)
  | str (s : String)
  | obj (isArray : Bool) (fields : List (String × JsValue))

/-- The empty object literal. -/
def jsEmpty : JsValue := .obj false []

/-- Whether a value is the JavaScript object/array kind that `lodash.set`
descends into (`isObject`, minus functions which never occur here). -/
def JsValue.isContainer : JsValue → Bool
  | .obj _ _ => true
  | _ => false

/-- `v === undefined`. -/
def JsValue.isUndefined : JsValue → Bool
  | .undefined => true
  | _ => false

/-- `typeof v === 'object'` — true for objects, arrays and `null`. -/
def JsValue.typeofObject : JsValue → Bool
  | .null => true
  | .obj _ _ => true
  | _ => false

/-- JavaScript truthiness. -/
def JsValue.truthy : JsValue → Bool
  | .undefined => false
  | .null => false
  | .bool b => b
  | .num n => n != 0
  | .str s => !s.isEmpty
  | .obj _ _ => true

/-- First binding of a key in a field list (JavaScript objects have unique
keys, so the first binding is the binding). -/
def lookupKey : List (String × JsValue) → String → Option JsValue
  | [], _ => none
  | (k', v) :: rest, k => if k' = k then some v else lookupKey rest k

/-- Replace the binding of `k` in place, or append it — property assignment
`o[k] = v` on the field list. -/
def assocSet : List (String × JsValue) → String → JsValue → List (String × JsValue)
  | [], k, v => [(k, v)]
  | (k', v') :: rest, k, v =>
    if k' = k then (k', v) :: rest else (k', v') :: assocSet rest k v

/-- Property read `o[k]`: `undefined` for absent keys and on non-objects. -/
def member (o : JsValue) (k : String) : JsValue :=
  match o with
  | .obj _ fs => (lookupKey fs k).getD .undefined
  | _ => .undefined

/-- Errors crossing function boundaries.  `loading` is the public
`LoadingError`, `internal` the package-private `InternalLoadingError`;
`fsError` a Node filesystem error carrying `errno`; `plain` a bare `Error`;
`missingRefError` Ajv's `MissingRefError`. -/
inductive JsError where
  | loading (message : String) (filePath : Option String) (labels : JsValue)
  | internal (message : String) (labels : JsValue)
  | fsError (errno : Int)
  | plain (message : String)
  | missingRefError (missingRef missingSchema message : JsValue)

/-- `Object.keys`.  Throws a `TypeError` on `null`/`undefined`, enumerates
index keys of strings, yields `[]` on other primitives. -/
def jsKeys : JsValue → Except JsError (List String)
  | .null => .error (.plain "Cannot convert undefined or null to object")
  | .undefined => .error (.plain "Cannot convert undefined or null to object")
  | .obj _ fs => .ok (fs.map Prod.fst)
  | .str s => .ok ((List.range s.length).map toString)
  | _ => .ok []

/-- Split a character list at dots, accumulating the current segment in
reverse. -/
def splitOnDot : List Char → List Char → List String
  | [], cur => [String.mk cur.reverse]
  | c :: rest, cur =>
    if c = '.' then String.mk cur.reverse :: splitOnDot rest []
    else splitOnDot rest (c :: cur)

/-- Modelled from the spec: the path-based get/set collaborator (`lodash`,
spec section 6) addresses nested structures by dotted/bracketed path strings.
`stringToPath` splits such a string into segments; brackets act as dots and
closing brackets are dropped, so `a.b` is `[a, b]` and `a[0]` is `[a, 0]`. -/
def stringToPath (s : String) : List String :=
  splitOnDot (s.data.filterMap fun ch =>
    if ch = ']' then none else if ch = '[' then some '.' else some ch) []

/-- Modelled from the spec: `lodash` treats a segment as an array index when
it is a canonical decimal numeral. -/
def isIndexSeg (s : String) : Bool :=
  !s.isEmpty && s.data.all Char.isDigit && (s = "0" || s.front != '0')

/-- Modelled from the spec: `lodash.get` — walk the parsed path, reading one
property per segment; any miss yields `undefined`. -/
def lget (c : JsValue) : List String → JsValue
  | [] => c
  | k :: ks => lget (member c k) ks

/-- Modelled from the spec: the intermediate container `lodash.set` walks
into — the existing value when it is a container, otherwise a fresh array
or object chosen by whether the next segment is an index. -/
def childFor (x : JsValue) (nextSeg : String) : JsValue :=
  if x.isContainer then x else .obj (isIndexSeg nextSeg) []

/-- Modelled from the spec: `lodash.set` — walk the parsed path, keeping
existing containers, replacing non-container intermediates by a fresh array
or object (chosen by whether the next segment is an index), and writing the
value at the last segment.  On a non-container root it is the identity, and
an empty path writes nothing. -/
def lset (c : JsValue) : List String → JsValue → JsValue
  | [], _ => c
  | [k], v =>
    match c with
    | .obj a fs => .obj a (assocSet fs k v)
    | _ => c
  | k :: k2 :: ks, v =>
    match c with
    | .obj a fs => .obj a (assocSet fs k (lset (childFor (member c k) k2) (k2 :: ks) v))
    | _ => c

/-- `setDefaultValue` from the source: write `defaultValues[key]` at path
`key` inside `conf` only when the path currently resolves to `undefined`. -/
def setDefaultValue (conf : JsValue) (defaultValues : JsValue) (key : String) : JsValue :=
  if (lget conf (stringToPath key)).isUndefined
  then lset conf (stringToPath key) (member defaultValues key)
  else conf

/-- The key loop of `setDefaultValues`, abstracted over the key list that
`Object.keys` produced. -/
def applyDefaults (conf : JsValue) (defaultValues : JsValue) (keys : List String) : JsValue :=
  keys.foldl (fun c key => setDefaultValue c defaultValues key) conf

/-- `setDefaultValues` from the source: iterate `Object.keys(defaultValues)`
(which throws on `null`). -/
def setDefaultValues (conf : JsValue) (defaultValues : JsValue) : Except JsError JsValue :=
  match jsKeys defaultValues with
  | .error e => .error e
  | .ok keys => .ok (applyDefaults conf defaultValues keys)

/-- Outcome of `fs.statSync`: a stat record (`isFile()` and `mode`) or a
thrown filesystem error carrying `errno`. -/
inductive StatOutcome where
  | ok (isFile : Bool) (mode : Nat)
  | err (errno : Int)

/-- Outcome of `fs.readFileSync`. -/
inductive ReadOutcome where
  | ok (data : String)
  | err (errno : Int)

/-- Outcome of `commentJson.parse` (with the `normalizeCommentArray` reviver
already applied on success): a value, a thrown non-`Error`, or a thrown
`Error` exposing whatever sits in its `line`, `lineNumber` and `column`
fields (`undefined` when absent). -/
inductive ParseOutcome where
  | ok (value : JsValue)
  | errNonError (value : JsValue)
  | errError (line lineNumber column : JsValue)

/-- Outcome of `ajv.validate` on a fresh strict-mode instance: a boolean
verdict together with `ajv.errors`, or a thrown `MissingRefError`, or a
thrown `Error` with the given message (strict-mode failures are `Error`s
whose message starts with `strict mode:`). -/
inductive AjvOutcome where
  | ret (valid : Bool) (errors : JsValue)
  | throwMissingRef (missingRef missingSchema message : JsValue)
  | throwErr (message : String)

/-- The ambient collaborators of one `load` call: filesystem, home
directory, comment-tolerant parser and schema engine. -/
structure Env where
  statSync : String → StatOutcome
  readFileSync : String → ReadOutcome
  existsSync : String → Bool
  homedir : String
  commentJsonParse : String → ParseOutcome
  ajvValidate : JsValue → JsValue → AjvOutcome

/-- Modelled from the spec: the tilde-expansion collaborator (`untildify`,
spec section 6) maps a leading `~` followed by a separator or end of string
to the home directory and leaves every other string unchanged. -/
def untildify (env : Env) (s : String) : String :=
  match s.data with
  | '~' :: '/' :: rest => env.homedir ++ String.mk ('/' :: rest)
  | ['~'] => env.homedir
  | _ => s

/-- `toOctal` from the source: `'0o' + value.toString(8)`. -/
def toOctal (value : Nat) : String :=
  "0o" ++ String.mk (Nat.toDigits 8 value)

/-- `isNonEmptyString` from the source. -/
def isNonEmptyString (value : JsValue) : Bool :=
  match value with
  | .str s => decide (0 < s.length)
  | _ => false

/-- `isValidFilePath` from the source: absent or a non-empty string. -/
def isValidFilePath (value : JsValue) : Bool :=
  value.isUndefined || isNonEmptyString value

/-- One character of the identity character class `[a-zA-Z0-9._]`. -/
def isIdentityChar (c : Char) : Bool :=
  c.isAlpha || c.isDigit || c = '.' || c = '_'

/-- `isValidIdentity` from the source: a string matching
`^[a-zA-Z0-9._]+$`. -/
def isValidIdentity (value : JsValue) : Bool :=
  match value with
  | .str s => !s.isEmpty && s.data.all isIdentityChar
  | _ => false

/-- `isUint` from the source: `Number.isInteger(value) && value >= 0`. -/
def isUint (value : JsValue) : Bool :=
  match value with
  | .num n => decide (0 ≤ n)
  | _ => false

/-- `isFilePermission` from the source: an unsigned integer at most
`0o7777`. -/
def isFilePermission (value : JsValue) : Bool :=
  isUint value &&
    (match value with
     | .num n => decide (n ≤ 0o7777)
     | _ => false)

/-- The recognized option names, in the order the source lists them. -/
def knownAttributes : List String :=
  ["identity", "filePath", "schema", "filePermission", "defaultValues"]

/-- `getUnknowwnAttribute` from the source (name kept, typo included): the
first key of `value` outside `knownAttributes`, or `none`. -/
def getUnknowwnAttribute (value : JsValue) (known : List String) :
    Except JsError (Option String) :=
  match jsKeys value with
  | .error e => .error e
  | .ok attributes => .ok (attributes.find? fun a => !known.contains a)

/-- `validateOptionAttributes` from the source: reject non-objects, then
reject the first unknown key.  The source guards with
`if (unknownAttribute)`, a truthiness test, so an empty-string unknown key
is falsy and slips through silently. -/
def validateOptionAttributes (options : JsValue) : Except JsError Unit :=
  if !options.typeofObject then
    .error (.loading "options is not a object" none jsEmpty)
  else
    match getUnknowwnAttribute options knownAttributes with
    | .error e => .error e
    | .ok (some a) =>
      if !a.isEmpty then .error (.loading ("unknown option: " ++ a) none jsEmpty)
      else .ok ()
    | .ok none => .ok ()

/-- The value a field of `result` holds after
`Object.assign(result, options)`: the caller's own value when the key is
present (even when it is explicitly `undefined`), the default otherwise. -/
def assignedField (options : JsValue) (key : String) (dflt : JsValue) : JsValue :=
  match options with
  | .obj _ fs => (lookupKey fs key).getD dflt
  | _ => dflt

/-- The fully validated option record `formatOptions` returns; `filePath`
and `filePermission` are extracted into their validated shapes. -/
structure FormattedOptions where
  identity : JsValue
  filePath : String
  schema : JsValue
  filePermission : Nat
  defaultValues : JsValue

/-- `getStandardFilePath` from the source: an explicit (truthy) override is
tilde-expanded and returned unconditionally; otherwise probe
`./config.json`, then `~/.config/<id>/config.json`, then
`/etc/<id>/config.json`, and fail with `no configuration file` (reporting
the first candidate) when none exists.  The absent override is modelled as
`none`, and a present empty string is falsy like in JavaScript. -/
def getStandardFilePath (env : Env) (configurationId : String)
    (overridePath : Option String) : Except JsError String :=
  if (overridePath.getD "") ≠ "" then
    .ok (untildify env (overridePath.getD ""))
  else
    let cwdFilePath := untildify env "./config.json"
    if env.existsSync cwdFilePath then .ok cwdFilePath
    else
      let userFilePath :=
        untildify env ("~/.config/" ++ configurationId ++ "/config.json")
      if env.existsSync userFilePath then .ok userFilePath
      else
        let systemFilePath :=
          untildify env ("/etc/" ++ configurationId ++ "/config.json")
        if env.existsSync systemFilePath then .ok systemFilePath
        else .error (.loading "no configuration file" (some cwdFilePath) jsEmpty)

/-- The string a validated identity contributes to a template literal. -/
def identityString : JsValue → String
  | .str s => s
  | _ => ""

/-- `formatOptions` from the source: attribute check, defaults merged by
`Object.assign`, the five validity checks in order, then path resolution
when no explicit `filePath` was given. -/
def formatOptions (env : Env) (options : JsValue) : Except JsError FormattedOptions :=
  match validateOptionAttributes options with
  | .error e => .error e
  | .ok () =>
    let identity := assignedField options "identity" .undefined
    let filePath := assignedField options "filePath" .undefined
    let schema := assignedField options "schema" jsEmpty
    let filePermission := assignedField options "filePermission" (.num 0o600)
    let defaultValues := assignedField options "defaultValues" jsEmpty
    if !isValidIdentity identity then
      .error (.loading "invalid option: identity" none jsEmpty)
    else if !isValidFilePath filePath then
      .error (.loading "invalid option: filePath" none jsEmpty)
    else if !schema.typeofObject then
      .error (.loading "invalid option: schema" none jsEmpty)
    else if !isFilePermission filePermission then
      .error (.loading "invalid option: filePermission" none jsEmpty)
    else if !defaultValues.typeofObject then
      .error (.loading "invalid option: defaultValues" none jsEmpty)
    else
      let perm : Nat := match filePermission with | .num n => n.toNat | _ => 0
      match filePath with
      | .undefined =>
        match getStandardFilePath env (identityString identity) none with
        | .error e => .error e
        | .ok p => .ok ⟨identity, p, schema, perm, defaultValues⟩
      | .str s => .ok ⟨identity, s, schema, perm, defaultValues⟩
      | _ => .ok ⟨identity, "", schema, perm, defaultValues⟩

/-- `readFile` from the source: stat, reject non-regular files, reject a
mode whose low nine bits exceed the ceiling, then read; the surrounding
catch turns any error with `errno === -2` into
`file is not existed or access denied` and re-throws everything else. -/
def readFile (env : Env) (filePath : String) (filePermission : Nat) :
    Except JsError String :=
  match env.statSync filePath with
  | .err errno =>
    if errno = -2 then
      .error (.loading "file is not existed or access denied" (some filePath) jsEmpty)
    else .error (.fsError errno)
  | .ok isFile mode =>
    if !isFile then .error (.loading "not a regular file" (some filePath) jsEmpty)
    else
      let actualPermission := mode &&& 0o777
      if filePermission < actualPermission then
        .error (.loading "file permission is too open" (some filePath)
          (.obj false [("upperBoundary", .str (toOctal filePermission)),
                       ("actual", .str (toOctal actualPermission))]))
      else
        match env.readFileSync filePath with
        | .ok data => .ok data
        | .err errno =>
          if errno = -2 then
            .error (.loading "file is not existed or access denied" (some filePath) jsEmpty)
          else .error (.fsError errno)

/-- `throwJsonParsingError` from the source: classify what the parser
threw.  `line` falls back to `lineNumber` through `||`, so a falsy `line`
(including a literal `0`) defers to `lineNumber`. -/
def throwJsonParsingError : ParseOutcome → JsError
  | .ok _ => .plain "unreachable"
  | .errNonError _ => .internal "comment-json throws bad object" jsEmpty
  | .errError l lineNumber column =>
    let line := if l.truthy then l else lineNumber
    if !isUint line || !isUint column then
      .internal "comment-josn throws bad error" jsEmpty
    else
      .internal "invalid JSON format" (.obj false [("line", line), ("column", column)])

/-- `parseFileData` from the source. -/
def parseFileData (env : Env) (data : String) : Except JsError JsValue :=
  match env.commentJsonParse data with
  | .ok v => .ok v
  | o => .error (throwJsonParsingError o)

/-- `loadFile` from the source. -/
def loadFile (env : Env) (filePath : String) (filePermission : Nat) :
    Except JsError JsValue :=
  match readFile env filePath filePermission with
  | .error e => .error e
  | .ok data => parseFileData env data

/-- The `message` property of a thrown value, as the source reads it. -/
def errMessage : JsError → String
  | .loading m _ _ => m
  | .internal m _ => m
  | .plain m => m
  | .fsError errno => "errno " ++ toString errno
  | .missingRefError _ _ m => identityString m

/-- `isAjvStrictModeError` from the source: an `Error` whose message starts
with `strict mode:` (every modelled error is an `Error` instance). -/
def isAjvStrictModeError (e : JsError) : Bool :=
  "strict mode:".isPrefixOf (errMessage e)

/-- `isAjvMissingReferenceError` from the source, applied to the fields of a
`MissingRefError`. -/
def isAjvMissingReferenceError (missingRef missingSchema message : JsValue) : Bool :=
  isNonEmptyString missingRef && isNonEmptyString missingSchema &&
    isNonEmptyString message

/-- `throwMissingSchemaRefereneError` from the source (name kept, typo
included). -/
def throwMissingSchemaRefereneError (missingRef missingSchema message : JsValue) : JsError :=
  if !isAjvMissingReferenceError missingRef missingSchema message then
    .plain "invalid ajv missing reference error"
  else
    .internal "bad schema"
      (.obj false [("reference", missingRef), ("schema", missingSchema),
                   ("message", message)])

/-- `Array.isArray`. -/
def jsIsArray : JsValue → Bool
  | .obj a _ => a
  | _ => false

/-- The `length` of a (dense) modelled array. -/
def jsArrayLength : JsValue → Nat
  | .obj _ fs => fs.length
  | _ => 0

/-- `throwBadAttributeError` from the source: demand a non-empty error
array, then report the first validation error as the labels of
`bad attribute`. -/
def throwBadAttributeError (errors : JsValue) : JsError :=
  if !jsIsArray errors || jsArrayLength errors = 0 then
    .plain "invalid ajv validation errors"
  else .internal "bad attribute" (member errors "0")

/-- `validateConfiguration` from the source: run the schema engine; inside
the catch, a `MissingRefError` is normalized first, then a strict-mode
`Error` becomes `bad schema`, and anything else is re-thrown. -/
def validateConfiguration (env : Env) (conf schema : JsValue) : Except JsError Unit :=
  let body : Except JsError Unit :=
    match env.ajvValidate schema conf with
    | .ret true _ => .ok ()
    | .ret false errors => .error (throwBadAttributeError errors)
    | .throwMissingRef r s m => .error (.missingRefError r s m)
    | .throwErr msg => .error (.plain msg)
  match body with
  | .ok () => .ok ()
  | .error e =>
    match e with
    | .missingRefError r s m => .error (throwMissingSchemaRefereneError r s m)
    | _ =>
      if isAjvStrictModeError e then
        .error (.internal "bad schema" (.obj false [("message", .str (errMessage e))]))
      else .error e

/-- `throwLoadingError` from the source: wrap exactly the internal failures
into the public `LoadingError`, attaching the file path; everything else
propagates unchanged. -/
def throwLoadingError (filePath : String) (e : JsError) : JsError :=
  match e with
  | .internal m labels => .loading m (some filePath) labels
  | _ => e

/-- `load` from the source: option normalization outside the try block,
then read → parse → validate → defaults, with the catch wrapping internal
failures. -/
def load (env : Env) (options : JsValue) : Except JsError JsValue :=
  match formatOptions env options with
  | .error e => .error e
  | .ok fo =>
    let pipeline : Except JsError JsValue :=
      match loadFile env fo.filePath fo.filePermission with
      | .error e => .error e
      | .ok config =>
        match validateConfiguration env config fo.schema with
        | .error e => .error e
        | .ok () =>
          match setDefaultValues config fo.defaultValues with
          | .error e => .error e
          | .ok c => .ok c
    match pipeline with
    | .ok c => .ok c
    | .error e => .error (throwLoadingError fo.filePath e)

/-! Concrete environments, used to evaluate the pipeline on closed inputs. -/

/-- An environment whose filesystem is empty: every stat fails with
`ENOENT` and every existence probe is negative. -/
def envMissing : Env :=
  { statSync := fun _ => .err (-2)
    readFileSync := fun _ => .err (-2)
    existsSync := fun _ => false
    homedir := "/home/user"
    commentJsonParse := fun _ => .ok jsEmpty
    ajvValidate := fun _ _ => .ret true jsEmpty }

/-- An environment whose stats fail with `EACCES` (`errno` -13). -/
def envEacces : Env :=
  { envMissing with
      statSync := fun _ => .err (-13)
      existsSync := fun _ => true }

/-- An environment with a readable 0o600 regular file whose parse throws an
`Error` carrying no position information at all. -/
def envBadParse : Env :=
  { envMissing with
      statSync := fun _ => .ok true 0o600
      readFileSync := fun _ => .ok "x"
      commentJsonParse := fun _ => .errError .undefined .undefined .undefined }

/-- Like `envBadParse` but the parser error exposes `line` 1 and `column`
0. -/
def envPosParse : Env :=
  { envBadParse with
      commentJsonParse := fun _ => .errError (.num 1) .undefined (.num 0) }

/-- An environment with a regular file of mode 0o701. -/
def envPerm : Env :=
  { envMissing with statSync := fun _ => .ok true 0o701 }

/-- Modelled from the spec: the fixed message vocabulary of the error table
in section 7; `unknown option: <name>` is matched by prefix. -/
def specTableMessage (m : String) : Bool :=
  "unknown option: ".data.isPrefixOf m.data ||
  (["invalid option: identity", "invalid option: filePath", "invalid option: schema",
    "invalid option: filePermission", "invalid option: defaultValues",
    "no configuration file", "file is not existed or access denied",
    "not a regular file", "file permission is too open", "invalid JSON format",
    "bad schema", "bad attribute"].contains m)

/-- The escape discipline the code actually obeys: a `LoadingError` whose
message is in the spec table or is one of the three off-table messages the
source can produce, or a re-thrown non-loader error (a filesystem error or
a bare `Error`); internal markers and `MissingRefError`s never escape. -/
def escapedErrorOk : JsError → Bool
  | .loading m _ _ =>
    specTableMessage m ||
      (["options is not a object", "comment-json throws bad object",
        "comment-josn throws bad error"].contains m)
  | .internal _ _ => false
  | .missingRefError _ _ _ => false
  | .fsError _ => true
  | .plain _ => true

/-- Like `escapedErrorOk` but for errors still inside the try block, where
the wrap into `LoadingError` has not happened yet: the internal messages
the pipeline can produce are listed explicitly. -/
def pipelineErrorOk : JsError → Bool
  | .loading m _ _ =>
    specTableMessage m ||
      (["options is not a object", "comment-json throws bad object",
        "comment-josn throws bad error"].contains m)
  | .internal m _ =>
    m == "invalid JSON format" || m == "comment-json throws bad object" ||
      m == "comment-josn throws bad error" || m == "bad schema" || m == "bad attribute"
  | .missingRefError _ _ _ => false
  | .fsError _ => true
  | .plain _ => true

/-! Helper lemmas about tilde expansion and error propagation. -/

/-- Tilde expansion maps a leading `~/` to the home directory. -/
theorem untildify_tilde (env : Env) (t : String) :
    untildify env ("~/" ++ t) = env.homedir ++ "/" ++ t := by
  have h1 : ("~/" ++ t) = String.mk ('~' :: '/' :: t.data) := by
    apply String.ext
    simp [String.data_append]
  rw [h1]
  show env.homedir ++ String.mk ('/' :: t.data) = env.homedir ++ "/" ++ t
  have h2 : String.mk ('/' :: t.data) = "/" ++ t := by
    apply String.ext
    simp [String.data_append]
  rw [h2, String.append_assoc]

/-- Tilde expansion leaves a string starting with `/` unchanged. -/
theorem untildify_slash (env : Env) (t : String) :
    untildify env ("/" ++ t) = "/" ++ t := by
  have hd : ("/" ++ t).data = '/' :: t.data := by
    simp [String.data_append]
  unfold untildify
  split
  · rename_i rest heq
    rw [hd] at heq
    simp at heq
  · rename_i heq
    rw [hd] at heq
    simp at heq
  · rfl

/-- A failure of option formatting leaves `load` unchanged (it is raised
outside the try block). -/
theorem load_of_formatOptions_error (env : Env) (options : JsValue) (e : JsError)
    (h : formatOptions env options = .error e) : load env options = .error e := by
  unfold load
  rw [h]

/-- After a successful read, `loadFile` is the parse step. -/
theorem loadFile_of_read_ok (env : Env) (p : String) (perm : Nat) (data : String)
    (h : readFile env p perm = .ok data) : loadFile env p perm = parseFileData env data := by
  unfold loadFile
  rw [h]

/-- A failing `loadFile` makes `load` fail with the wrapped error. -/
theorem load_of_loadFile_error (env : Env) (options : JsValue) (fo : FormattedOptions)
    (e : JsError) (hfo : formatOptions env options = .ok fo)
    (hl : loadFile env fo.filePath fo.filePermission = .error e) :
    load env options = .error (throwLoadingError fo.filePath e) := by
  unfold load
  rw [hfo]
  dsimp only
  rw [hl]

/-- `parseFileData` on a thrown parser `Error` yields the classified
internal failure. -/
theorem parseFileData_errError (env : Env) (data : String) (l ln col : JsValue)
    (hp : env.commentJsonParse data = .errError l ln col) :
    parseFileData env data = .error (throwJsonParsingError (.errError l ln col)) := by
  unfold parseFileData
  rw [hp]

/-- Claim C2: with an explicit `filePath` in the option bag, option
validation is claimed to succeed without a (valid) `identity`.  The
counterexample refutes this: the code validates `identity` unconditionally,
so a bag carrying only `filePath` fails with `invalid option: identity`. -/
theorem c2_counterexample :
    load envMissing (.obj false [("filePath", .str "x.json")]) =
      .error (.loading "invalid option: identity" none jsEmpty) := rfl

/-- Claim C2 (amended): the identity pattern check is unconditional — even
when an explicit `filePath` string is supplied, an absent or non-matching
`identity` makes `load` fail with `invalid option: identity` (after the
unknown-key check). -/
theorem c2_theorem :
    (∀ (env : Env) (fp : JsValue),
      load env (.obj false [("filePath", fp)]) =
        .error (.loading "invalid option: identity" none jsEmpty)) ∧
    (∀ (env : Env) (idv fp : JsValue), isValidIdentity idv = false →
      load env (.obj false [("identity", idv), ("filePath", fp)]) =
        .error (.loading "invalid option: identity" none jsEmpty)) := by
  constructor
  · intro env fp
    rfl
  · intro env idv fp h
    apply load_of_formatOptions_error
    unfold formatOptions
    have hva : validateOptionAttributes
        (.obj false [("identity", idv), ("filePath", fp)]) = .ok () := rfl
    rw [hva]
    simp [assignedField, lookupKey, h]

/-- Claim C2 witness: the amended theorem applied to an identity that fails
the pattern. -/
theorem c2_witness :
    load envMissing (.obj false [("identity", .str "!@"), ("filePath", .str "x.json")]) =
      .error (.loading "invalid option: identity" none jsEmpty) :=
  c2_theorem.2 envMissing (.str "!@") (.str "x.json") (by decide)

/-- Claim C3: the claim says an explicit `filePath` is tilde-expanded before
use.  Counterexample: with an explicit `~/c.json` the reported (and
stat'ed) path is the literal `~/c.json`, although expansion would have
produced `/home/user/c.json`. -/
theorem c3_counterexample :
    load envMissing (.obj false [("identity", .str "foo"), ("filePath", .str "~/c.json")]) =
      .error (.loading "file is not existed or access denied" (some "~/c.json") jsEmpty) ∧
    untildify envMissing "~/c.json" = "/home/user/c.json" ∧
    "~/c.json" ≠ "/home/user/c.json" :=
  ⟨rfl, rfl, by decide⟩

/-- Claim C3 (amended): an explicit `filePath` is taken verbatim — no
existence check and no tilde expansion (for every environment, option
formatting returns the string unchanged without consulting the
filesystem); the resolver's `overridePath` parameter would tilde-expand,
but `load` never passes it. -/
theorem c3_theorem :
    (∀ (env : Env) (idv : JsValue) (s : String),
      isValidIdentity idv = true → 0 < s.length →
      formatOptions env (.obj false [("identity", idv), ("filePath", .str s)]) =
        .ok ⟨idv, s, jsEmpty, 384, jsEmpty⟩) ∧
    (∀ (env : Env) (cid p : String), p ≠ "" →
      getStandardFilePath env cid (some p) = .ok (untildify env p)) ∧
    (∀ (env : Env) (t : String), untildify env ("~/" ++ t) = env.homedir ++ "/" ++ t) := by
  refine ⟨?_, ?_, ?_⟩
  · intro env idv s h1 h2
    unfold formatOptions
    have hva : validateOptionAttributes
        (.obj false [("identity", idv), ("filePath", .str s)]) = .ok () := rfl
    rw [hva]
    simp [assignedField, lookupKey, h1, isValidFilePath, isNonEmptyString, h2,
      JsValue.isUndefined, JsValue.typeofObject, isFilePermission, isUint, jsEmpty]
  · intro env cid p h
    unfold getStandardFilePath
    simp [h]
  · intro env t
    exact untildify_tilde env t

/-- Claim C3 witness: a tilde path given explicitly survives formatting
unchanged. -/
theorem c3_witness :
    formatOptions envMissing
        (.obj false [("identity", .str "foo"), ("filePath", .str "~/c.json")]) =
      .ok ⟨.str "foo", "~/c.json", jsEmpty, 384, jsEmpty⟩ :=
  c3_theorem.1 envMissing (.str "foo") "~/c.json" (by decide) (by decide)

/-- Claim C4: the claim says any parse failure is reported as
`invalid JSON format`.  Counterexample: when the parser's error exposes no
recognizable line/column pair the reported message is the source's
`comment-josn throws bad error`, not `invalid JSON format`. -/
theorem c4_counterexample :
    load envBadParse (.obj false [("identity", .str "foo"), ("filePath", .str "cfg.json")]) =
      .error (.loading "comment-josn throws bad error" (some "cfg.json") jsEmpty) ∧
    "comment-josn throws bad error" ≠ "invalid JSON format" :=
  ⟨rfl, by decide⟩

/-- Claim C4 (amended): a parser `Error` exposing a non-negative integer
line/column pair (with `line` falling back to `lineNumber` when falsy)
yields `invalid JSON format` with `line`/`column` labels; a parser `Error`
without such a pair yields `comment-josn throws bad error`; a thrown
non-`Error` yields `comment-json throws bad object`.  The parser's own
message is never used. -/
theorem c4_theorem :
    ∀ (env : Env) (options : JsValue) (fo : FormattedOptions) (data : String),
      formatOptions env options = .ok fo →
      readFile env fo.filePath fo.filePermission = .ok data →
      ((∀ l ln col, env.commentJsonParse data = .errError l ln col →
        (((!isUint (if l.truthy then l else ln) || !isUint col) = false →
          load env options = .error (.loading "invalid JSON format" (some fo.filePath)
            (.obj false [("line", if l.truthy then l else ln), ("column", col)]))) ∧
         ((!isUint (if l.truthy then l else ln) || !isUint col) = true →
          load env options =
            .error (.loading "comment-josn throws bad error" (some fo.filePath) jsEmpty)))) ∧
       (∀ w, env.commentJsonParse data = .errNonError w →
        load env options =
          .error (.loading "comment-json throws bad object" (some fo.filePath) jsEmpty))) := by
  intro env options fo data hfo hread
  constructor
  · intro l ln col hp
    constructor
    · intro hcond
      have hpf : parseFileData env data = .error (.internal "invalid JSON format"
          (.obj false [("line", if l.truthy then l else ln), ("column", col)])) := by
        rw [parseFileData_errError env data l ln col hp]
        simp [throwJsonParsingError, hcond]
      have := load_of_loadFile_error env options fo _ hfo
        ((loadFile_of_read_ok env fo.filePath fo.filePermission data hread).trans hpf)
      exact this
    · intro hcond
      have hpf : parseFileData env data =
          .error (.internal "comment-josn throws bad error" jsEmpty) := by
        rw [parseFileData_errError env data l ln col hp]
        simp [throwJsonParsingError, hcond]
      exact load_of_loadFile_error env options fo _ hfo
        ((loadFile_of_read_ok env fo.filePath fo.filePermission data hread).trans hpf)
  · intro w hp
    have hpf : parseFileData env data =
        .error (.internal "comment-json throws bad object" jsEmpty) := by
      unfold parseFileData
      rw [hp]
      rfl
    exact load_of_loadFile_error env options fo _ hfo
      ((loadFile_of_read_ok env fo.filePath fo.filePermission data hread).trans hpf)

/-- Claim C4 witness: a parser error exposing line 1 and column 0 is
reported as `invalid JSON format` with those labels. -/
theorem c4_witness :
    load envPosParse (.obj false [("identity", .str "foo"), ("filePath", .str "cfg.json")]) =
      .error (.loading "invalid JSON format" (some "cfg.json")
        (.obj false [("line", .num 1), ("column", .num 0)])) :=
  ((c4_theorem envPosParse (.obj false [("identity", .str "foo"), ("filePath", .str "cfg.json")])
      ⟨.str "foo", "cfg.json", jsEmpty, 384, jsEmpty⟩ "x" rfl rfl).1
    (.num 1) .undefined (.num 0) rfl).1 (by decide)

/-- Claim C5: for an existing regular file, the read step fails with
`file permission is too open` exactly when the low nine mode bits exceed
the ceiling under plain integer comparison, with octal-string labels
`upperBoundary` (the ceiling) and `actual` (the masked mode). -/
theorem c5_theorem :
    ∀ (env : Env) (filePath : String) (mode c : Nat),
      c ≤ 0o7777 →
      env.statSync filePath = .ok true mode →
      (readFile env filePath c =
          .error (.loading "file permission is too open" (some filePath)
            (.obj false [("upperBoundary", .str (toOctal c)),
                         ("actual", .str (toOctal (mode &&& 0o777)))])) ↔
        c < mode &&& 0o777) := by
  intro env filePath mode c _hc hstat
  unfold readFile
  rw [hstat]
  by_cases hlt : c < mode &&& 0o777
  · simp [hlt]
  · simp only [Bool.not_true, if_neg hlt, if_false]
    constructor
    · intro h
      cases hr : env.readFileSync filePath with
      | ok data => rw [hr] at h; simp at h
      | err errno =>
        rw [hr] at h
        by_cases he : errno = -2
        · simp [he] at h
        · simp [he] at h
    · intro h
      exact absurd h hlt

/-- Claim C5 witness: mode 0o701 against ceiling 0o700 fails with labels
`0o700`/`0o701`, exactly as the spec's scenario demands. -/
theorem c5_witness :
    readFile envPerm "data.json" 448 =
      .error (.loading "file permission is too open" (some "data.json")
        (.obj false [("upperBoundary", .str "0o700"), ("actual", .str "0o701")])) :=
  (c5_theorem envPerm "data.json" 449 448 (by decide) rfl).mpr (by decide)

/-- Claim C6: without an explicit `filePath`, discovery probes, in order,
`./config.json`, then the tilde-expanded `~/.config/<identity>/config.json`
(a leading `~/` becomes the home directory, and paths not starting with `~`
are untouched), then `/etc/<identity>/config.json`, returning the first
existing candidate; when none exists it fails with
`no configuration file`, label-free, reporting the first candidate. -/
theorem c6_theorem :
    ∀ (env : Env) (cid : String),
      (env.existsSync "./config.json" = true →
        getStandardFilePath env cid none = .ok "./config.json") ∧
      (env.existsSync "./config.json" = false →
        env.existsSync (untildify env ("~/.config/" ++ cid ++ "/config.json")) = true →
        getStandardFilePath env cid none =
          .ok (untildify env ("~/.config/" ++ cid ++ "/config.json"))) ∧
      (env.existsSync "./config.json" = false →
        env.existsSync (untildify env ("~/.config/" ++ cid ++ "/config.json")) = false →
        env.existsSync (untildify env ("/etc/" ++ cid ++ "/config.json")) = true →
        getStandardFilePath env cid none =
          .ok (untildify env ("/etc/" ++ cid ++ "/config.json"))) ∧
      (env.existsSync "./config.json" = false →
        env.existsSync (untildify env ("~/.config/" ++ cid ++ "/config.json")) = false →
        env.existsSync (untildify env ("/etc/" ++ cid ++ "/config.json")) = false →
        getStandardFilePath env cid none =
          .error (.loading "no configuration file" (some "./config.json") jsEmpty)) ∧
      (∀ t, untildify env ("~/" ++ t) = env.homedir ++ "/" ++ t) ∧
      (∀ t, untildify env ("/" ++ t) = "/" ++ t) := by
  intro env cid
  have hcwd : untildify env "./config.json" = "./config.json" := rfl
  refine ⟨?_, ?_, ?_, ?_, untildify_tilde env, untildify_slash env⟩
  · intro h1
    unfold getStandardFilePath
    simp [hcwd, h1]
  · intro h1 h2
    unfold getStandardFilePath
    simp [hcwd, h1, h2]
  · intro h1 h2 h3
    unfold getStandardFilePath
    simp [hcwd, h1, h2, h3]
  · intro h1 h2 h3
    unfold getStandardFilePath
    simp [hcwd, h1, h2, h3]

/-- Claim C6 witness: on an empty filesystem discovery fails label-free
with the first candidate as the reported path. -/
theorem c6_witness :
    getStandardFilePath envMissing "foo" none =
      .error (.loading "no configuration file" (some "./config.json") jsEmpty) :=
  (c6_theorem envMissing "foo").2.2.2.1 rfl rfl rfl

/-- Claim C8: `typeof null === 'object'`, so `schema: null` and
`defaultValues: null` pass option validation — no `invalid option: schema`
or `invalid option: defaultValues` is raised and formatting succeeds. -/
theorem c8_theorem :
    ∀ (env : Env) (idv : JsValue) (s : String),
      isValidIdentity idv = true → 0 < s.length →
      formatOptions env (.obj false
          [("identity", idv), ("filePath", .str s),
           ("schema", .null), ("defaultValues", .null)]) =
        .ok ⟨idv, s, .null, 384, .null⟩ := by
  intro env idv s h1 h2
  unfold formatOptions
  have hva : validateOptionAttributes (.obj false
      [("identity", idv), ("filePath", .str s),
       ("schema", .null), ("defaultValues", .null)]) = .ok () := rfl
  rw [hva]
  simp [assignedField, lookupKey, h1, isValidFilePath, isNonEmptyString, h2,
    JsValue.isUndefined, JsValue.typeofObject, isFilePermission, isUint, jsEmpty]

/-- Claim C8 witness: a concrete bag with both `schema` and
`defaultValues` equal to `null` formats successfully. -/
theorem c8_witness :
    formatOptions envMissing (.obj false
        [("identity", .str "foo"), ("filePath", .str "a.json"),
         ("schema", .null), ("defaultValues", .null)]) =
      .ok ⟨.str "foo", "a.json", .null, 384, .null⟩ :=
  c8_theorem envMissing (.str "foo") "a.json" (by decide) (by decide)

/-- Claim C9: the claim says the unknown-key error always wins.
Counterexample: the source tests the unknown key with JavaScript
truthiness (`if (unknownAttribute)`), so a bag whose first unrecognized
key is the empty string is silently accepted — validation falls through
and fails with `invalid option: identity` instead of
`unknown option: <name>`. -/
theorem c9_counterexample :
    getUnknowwnAttribute (.obj false [("", .num 1), ("identity", .str "!!")])
        knownAttributes = .ok (some "") ∧
    load envMissing (.obj false [("", .num 1), ("identity", .str "!!")]) =
      .error (.loading "invalid option: identity" none jsEmpty) ∧
    ("invalid option: identity" : String) ≠ "unknown option: " :=
  ⟨rfl, rfl, by decide⟩

/-- Claim C9 (amended): whenever the first unrecognized key of the bag's
key enumeration is a non-empty string, `load` fails with
`unknown option: <name>` naming it, before every per-field validity check
— no matter how invalid the recognized fields are; an empty-string first
unknown key is falsy in the source's truthiness guard and is skipped, so
validation proceeds to the per-field checks. -/
theorem c9_theorem :
    (∀ (env : Env) (b : Bool) (fs : List (String × JsValue)) (a : String),
      getUnknowwnAttribute (.obj b fs) knownAttributes = .ok (some a) → a ≠ "" →
      load env (.obj b fs) =
        .error (.loading ("unknown option: " ++ a) none jsEmpty)) ∧
    (∀ (b : Bool) (fs : List (String × JsValue)),
      getUnknowwnAttribute (.obj b fs) knownAttributes = .ok (some "") →
      validateOptionAttributes (.obj b fs) = .ok ()) := by
  constructor
  · intro env b fs a h hne
    apply load_of_formatOptions_error
    unfold formatOptions validateOptionAttributes
    rw [h]
    have hni : a.isEmpty = false := by
      cases hae : a.isEmpty with
      | false => rfl
      | true => exact absurd ((String.isEmpty_iff a).mp hae) hne
    simp [JsValue.typeofObject, hni]
  · intro b fs h
    unfold validateOptionAttributes
    rw [h]
    rfl

/-- Claim C9 witness: a bag whose `identity` is invalid and which carries
the (non-empty) unknown key `bogus` fails with the unknown-key error, not
the identity error. -/
theorem c9_witness :
    load envMissing (.obj false [("identity", .str "!!"), ("bogus", .num 1)]) =
      .error (.loading "unknown option: bogus" none jsEmpty) :=
  c9_theorem.1 envMissing false [("identity", .str "!!"), ("bogus", .num 1)] "bogus"
    rfl (by decide)

/-- Claim C10: an explicitly `undefined` `schema`, `filePermission` or
`defaultValues` overwrites the default through `Object.assign` and then
fails its type check with the corresponding `invalid option` error, while
an explicitly `undefined` `filePath` behaves exactly as an absent one. -/
theorem c10_theorem :
    ∀ env : Env,
      load env (.obj false [("identity", .str "foo"), ("schema", .undefined)]) =
        .error (.loading "invalid option: schema" none jsEmpty) ∧
      load env (.obj false [("identity", .str "foo"), ("filePermission", .undefined)]) =
        .error (.loading "invalid option: filePermission" none jsEmpty) ∧
      load env (.obj false [("identity", .str "foo"), ("defaultValues", .undefined)]) =
        .error (.loading "invalid option: defaultValues" none jsEmpty) ∧
      formatOptions env (.obj false [("identity", .str "foo"), ("filePath", .undefined)]) =
        formatOptions env (.obj false [("identity", .str "foo")]) :=
  fun _ => ⟨rfl, rfl, rfl, rfl⟩


/-! The `lodash.get`/`lodash.set` lemma stack used by the default-value
idempotence proof. -/
theorem isUndefined_iff (v : JsValue) : v.isUndefined = true ↔ v = .undefined := by
  cases v <;> simp [JsValue.isUndefined]

theorem lookupKey_assocSet_self (fs : List (String × JsValue)) (k : String) (v : JsValue) :
    lookupKey (assocSet fs k v) k = some v := by
  induction fs with
  | nil => simp [assocSet, lookupKey]
  | cons hd rest ih =>
    obtain ⟨k', v'⟩ := hd
    by_cases h : k' = k
    · simp [assocSet, lookupKey, h]
    · simp [assocSet, lookupKey, h, ih]

theorem lookupKey_assocSet_other (fs : List (String × JsValue)) (k k' : String) (v : JsValue)
    (h : k' ≠ k) : lookupKey (assocSet fs k v) k' = lookupKey fs k' := by
  induction fs with
  | nil => simp [assocSet, lookupKey, Ne.symm h]
  | cons hd rest ih =>
    obtain ⟨k0, v0⟩ := hd
    by_cases h0 : k0 = k
    · subst h0
      simp [assocSet, lookupKey, Ne.symm h]
    · simp only [assocSet, if_neg h0]
      by_cases h1 : k0 = k'
      · simp [lookupKey, h1]
      · simp [lookupKey, h1, ih]

theorem assocSet_self_of_lookup (fs : List (String × JsValue)) (k : String) (v : JsValue)
    (h : lookupKey fs k = some v) : assocSet fs k v = fs := by
  induction fs with
  | nil => simp [lookupKey] at h
  | cons hd rest ih =>
    obtain ⟨k0, v0⟩ := hd
    by_cases h0 : k0 = k
    · subst h0
      simp [lookupKey] at h
      simp [assocSet, h]
    · simp [lookupKey, h0] at h
      simp [assocSet, h0, ih h]

theorem lookup_of_assocSet_eq (fs : List (String × JsValue)) (k : String) (v : JsValue)
    (h : assocSet fs k v = fs) : lookupKey fs k = some v := by
  induction fs with
  | nil => simp [assocSet] at h
  | cons hd rest ih =>
    obtain ⟨k0, v0⟩ := hd
    by_cases h0 : k0 = k
    · subst h0
      simp [assocSet] at h
      simp [lookupKey, h]
    · simp [assocSet, h0] at h
      simp [lookupKey, h0, ih h]

theorem assocSet_assocSet (fs : List (String × JsValue)) (k : String) (v w : JsValue) :
    assocSet (assocSet fs k v) k w = assocSet fs k w := by
  induction fs with
  | nil => simp [assocSet]
  | cons hd rest ih =>
    obtain ⟨k0, v0⟩ := hd
    by_cases h0 : k0 = k
    · simp [assocSet, h0]
    · simp [assocSet, h0, ih]

theorem member_assocSet_self (a : Bool) (fs : List (String × JsValue)) (k : String)
    (v : JsValue) : member (.obj a (assocSet fs k v)) k = v := by
  simp [member, lookupKey_assocSet_self]

theorem member_assocSet_other (a : Bool) (fs : List (String × JsValue)) (k k' : String)
    (v : JsValue) (h : k' ≠ k) :
    member (.obj a (assocSet fs k v)) k' = member (.obj a fs) k' := by
  simp [member, lookupKey_assocSet_other fs k k' v h]

theorem lget_undef_all : ∀ ks : List String, lget .undefined ks = .undefined
  | [] => rfl
  | _ :: ks => lget_undef_all ks

theorem lget_cons_not_container (c : JsValue) (k : String) (ks : List String)
    (h : c.isContainer = false) : lget c (k :: ks) = .undefined := by
  cases c <;> simp_all [JsValue.isContainer, lget, member, lget_undef_all]

theorem lset_of_not_container (c : JsValue) (p : List String) (v : JsValue)
    (h : c.isContainer = false) : lset c p v = c := by
  cases p with
  | nil => rfl
  | cons k ks =>
    cases ks with
    | nil => cases c <;> simp_all [lset, JsValue.isContainer]
    | cons k2 ks2 => cases c <;> simp_all [lset, JsValue.isContainer]

theorem lset_obj_shape (a : Bool) (fs : List (String × JsValue)) (p : List String)
    (v : JsValue) (h : p ≠ []) : ∃ gs, lset (.obj a fs) p v = .obj a gs := by
  cases p with
  | nil => exact absurd rfl h
  | cons k ks =>
    cases ks with
    | nil => exact ⟨assocSet fs k v, rfl⟩
    | cons k2 ks2 => exact ⟨_, rfl⟩

theorem childFor_isContainer (x : JsValue) (k2 : String) :
    (childFor x k2).isContainer = true := by
  unfold childFor
  by_cases hx : x.isContainer
  · rw [if_pos hx]; exact hx
  · rw [if_neg hx]; rfl

theorem childFor_of_container (x : JsValue) (k2 : String) (hx : x.isContainer = true) :
    childFor x k2 = x := by
  unfold childFor
  rw [if_pos hx]

theorem childFor_obj_exists (x : JsValue) (k2 : String) :
    ∃ a fs, childFor x k2 = .obj a fs := by
  have h := childFor_isContainer x k2
  cases hc : childFor x k2 <;> rw [hc] at h <;> simp [JsValue.isContainer] at h
  · exact ⟨_, _, rfl⟩

theorem lget_lset_self : ∀ (p : List String), p ≠ [] →
    ∀ (a : Bool) (fs : List (String × JsValue)) (v : JsValue),
      lget (lset (.obj a fs) p v) p = v := by
  intro p
  induction p with
  | nil => intro h; exact absurd rfl h
  | cons k ks ih =>
    intro _ a fs v
    cases ks with
    | nil =>
      show lget (member (.obj a (assocSet fs k v)) k) [] = v
      rw [member_assocSet_self]
      rfl
    | cons k2 ks2 =>
      show lget (member (.obj a (assocSet fs k
        (lset (childFor (member (.obj a fs) k) k2) (k2 :: ks2) v))) k) (k2 :: ks2) = v
      rw [member_assocSet_self]
      obtain ⟨a', fs', hcf⟩ := childFor_obj_exists (member (.obj a fs) k) k2
      rw [hcf]
      exact ih (by simp) a' fs' v

theorem lset_lset_same : ∀ (p : List String) (c : JsValue) (v : JsValue),
    lset (lset c p v) p v = lset c p v := by
  intro p
  induction p with
  | nil => intro c v; rfl
  | cons k ks ih =>
    intro c v
    by_cases hc : c.isContainer
    · cases c with
      | obj a fs =>
        cases ks with
        | nil =>
          show JsValue.obj a (assocSet (assocSet fs k v) k v) = .obj a (assocSet fs k v)
          rw [assocSet_assocSet]
        | cons k2 ks2 =>
          show lset (.obj a (assocSet fs k
              (lset (childFor (member (.obj a fs) k) k2) (k2 :: ks2) v))) (k :: k2 :: ks2) v =
            .obj a (assocSet fs k (lset (childFor (member (.obj a fs) k) k2) (k2 :: ks2) v))
          obtain ⟨a', fs', hcf⟩ := childFor_obj_exists (member (.obj a fs) k) k2
          obtain ⟨gs, hgs⟩ := lset_obj_shape a' fs' (k2 :: ks2) v (by simp)
          show JsValue.obj a (assocSet (assocSet fs k
              (lset (childFor (member (.obj a fs) k) k2) (k2 :: ks2) v)) k
              (lset (childFor (member (.obj a (assocSet fs k
                (lset (childFor (member (.obj a fs) k) k2) (k2 :: ks2) v))) k) k2)
                (k2 :: ks2) v)) = _
          rw [member_assocSet_self, hcf, hgs]
          rw [childFor_of_container _ _ (by rfl)]
          rw [← hgs, ih (.obj a' fs') v, hgs, assocSet_assocSet]
      | undefined => simp [JsValue.isContainer] at hc
      | null => simp [JsValue.isContainer] at hc
      | bool b => simp [JsValue.isContainer] at hc
      | num n => simp [JsValue.isContainer] at hc
      | str s => simp [JsValue.isContainer] at hc
    · rw [lset_of_not_container c (k :: ks) v (by simpa using hc),
        lset_of_not_container c (k :: ks) v (by simpa using hc)]

theorem lget_nil (c : JsValue) : lget c [] = c := rfl

theorem lget_cons (c : JsValue) (k : String) (ks : List String) :
    lget c (k :: ks) = lget (member c k) ks := rfl

theorem lset_single (a : Bool) (fs : List (String × JsValue)) (k : String) (v : JsValue) :
    lset (.obj a fs) [k] v = .obj a (assocSet fs k v) := rfl

theorem lset_cons2 (a : Bool) (fs : List (String × JsValue)) (k k2 : String)
    (ks : List String) (v : JsValue) :
    lset (.obj a fs) (k :: k2 :: ks) v =
      .obj a (assocSet fs k (lset (childFor (member (.obj a fs) k) k2) (k2 :: ks) v)) := rfl

theorem lget_lset_of_ne_undef : ∀ (p' : List String) (c : JsValue) (p : List String)
    (v' : JsValue), lget c p' = .undefined → lget c p ≠ .undefined →
    lget (lset c p' v') p ≠ .undefined := by
  intro p'
  induction p' with
  | nil =>
    intro c p v' _ h2
    exact h2
  | cons k' ks' ih =>
    intro c p v' h1 h2
    by_cases hc : c.isContainer
    · cases c with
      | obj a fs =>
        cases ks' with
        | nil =>
          cases p with
          | nil =>
            rw [lset_single, lget_nil]
            simp
          | cons k ks =>
            by_cases hk : k = k'
            · subst hk
              exfalso
              rw [lget_cons] at h1 h2
              rw [lget_nil] at h1
              rw [h1, lget_undef_all] at h2
              exact h2 rfl
            · rw [lset_single, lget_cons, member_assocSet_other a fs k' k v' hk]
              rw [lget_cons] at h2
              exact h2
        | cons k2' ks2' =>
          cases p with
          | nil =>
            rw [lset_cons2, lget_nil]
            simp
          | cons k ks =>
            by_cases hk : k = k'
            · subst hk
              rw [lget_cons] at h1 h2
              rw [lset_cons2, lget_cons, member_assocSet_self]
              by_cases hx : (member (.obj a fs) k).isContainer
              · rw [childFor_of_container _ _ hx]
                exact ih (member (.obj a fs) k) ks v' h1 h2
              · cases ks with
                | nil =>
                  rw [lget_nil]
                  obtain ⟨a', fs', hcf⟩ := childFor_obj_exists (member (.obj a fs) k) k2'
                  rw [hcf]
                  obtain ⟨gs, hgs⟩ := lset_obj_shape a' fs' (k2' :: ks2') v' (by simp)
                  rw [hgs]
                  simp
                | cons kk kks =>
                  exfalso
                  exact h2 (lget_cons_not_container _ _ _ (by simpa using hx))
            · rw [lset_cons2, lget_cons, member_assocSet_other _ _ _ _ _ hk]
              rw [lget_cons] at h2
              exact h2
      | undefined => simp [JsValue.isContainer] at hc
      | null => simp [JsValue.isContainer] at hc
      | bool b => simp [JsValue.isContainer] at hc
      | num n => simp [JsValue.isContainer] at hc
      | str s => simp [JsValue.isContainer] at hc
    · rw [lset_of_not_container c (k' :: ks') v' (by simpa using hc)]
      exact h2

theorem container_obj_exists (x : JsValue) (hx : x.isContainer = true) :
    ∃ a fs, x = .obj a fs := by
  cases x <;> simp [JsValue.isContainer] at hx
  · exact ⟨_, _, rfl⟩

theorem lset_fixed_preserved : ∀ (p' : List String) (c : JsValue) (p : List String)
    (v' : JsValue), lset c p .undefined = c → lget c p' = .undefined →
    lget (lset c p' v') p ≠ .undefined ∨ lset (lset c p' v') p .undefined = lset c p' v' := by
  intro p'
  induction p' with
  | nil =>
    intro c p v' hno _
    exact Or.inr hno
  | cons k' ks' ih =>
    intro c p v' hno h1
    by_cases hc : c.isContainer
    case neg =>
      rw [lset_of_not_container c (k' :: ks') v' (by simpa using hc)]
      exact Or.inr hno
    case pos =>
    obtain ⟨a, fs, rfl⟩ := container_obj_exists c hc
    cases ks' with
    | nil =>
      rw [lget_cons, lget_nil] at h1
      cases p with
      | nil =>
        left
        rw [lset_single, lget_nil]
        simp
      | cons k ks =>
        cases ks with
        | nil =>
          rw [lset_single] at hno
          have hfs : assocSet fs k .undefined = fs := by injection hno
          have hlk := lookup_of_assocSet_eq _ _ _ hfs
          by_cases hk : k = k'
          · subst hk
            by_cases hv : v' = .undefined
            · subst hv
              right
              rw [lset_single, assocSet_self_of_lookup fs k .undefined hlk, lset_single, hfs]
            · left
              rw [lset_single, lget_cons, member_assocSet_self, lget_nil]
              exact hv
          · right
            rw [lset_single, lset_single]
            have hl2 : lookupKey (assocSet fs k' v') k = some .undefined := by
              rw [lookupKey_assocSet_other fs k' k v' hk]
              exact hlk
            rw [assocSet_self_of_lookup _ _ _ hl2]
        | cons k2 ks2 =>
          rw [lset_cons2] at hno
          by_cases hx : (member (.obj a fs) k).isContainer
          case neg =>
            exfalso
            obtain ⟨a', fs', hcf⟩ := childFor_obj_exists (member (.obj a fs) k) k2
            rw [hcf] at hno
            obtain ⟨gs, hgs⟩ := lset_obj_shape a' fs' (k2 :: ks2) .undefined (by simp)
            rw [hgs] at hno
            have hfs : assocSet fs k (.obj a' gs) = fs := by injection hno
            have hlk := lookup_of_assocSet_eq _ _ _ hfs
            have hm : member (.obj a fs) k = .obj a' gs := by simp [member, hlk]
            rw [hm] at hx
            simp [JsValue.isContainer] at hx
          case pos =>
            obtain ⟨a', fs', hm'⟩ := container_obj_exists _ hx
            rw [childFor_of_container _ _ hx, hm'] at hno
            have hfs : assocSet fs k (lset (.obj a' fs') (k2 :: ks2) .undefined) = fs := by
              injection hno
            have hlk := lookup_of_assocSet_eq _ _ _ hfs
            have hmw : member (.obj a fs) k = lset (.obj a' fs') (k2 :: ks2) .undefined := by
              simp [member, hlk]
            have hno' : lset (.obj a' fs') (k2 :: ks2) .undefined = .obj a' fs' :=
              hmw.symm.trans hm'
            by_cases hk : k = k'
            · subst hk
              exfalso
              rw [h1] at hm'
              exact JsValue.noConfusion hm'
            · right
              rw [lset_single, lset_cons2, member_assocSet_other a fs k' k v' hk]
              rw [childFor_of_container _ _ hx, hm', hno']
              have hl2 : lookupKey (assocSet fs k' v') k = some (.obj a' fs') := by
                rw [lookupKey_assocSet_other fs k' k v' hk, hlk, hno']
              rw [assocSet_self_of_lookup _ _ _ hl2]
    | cons k2' ks2' =>
      rw [lget_cons] at h1
      cases p with
      | nil =>
        left
        rw [lset_cons2, lget_nil]
        simp
      | cons k ks =>
        cases ks with
        | nil =>
          rw [lset_single] at hno
          have hfs : assocSet fs k .undefined = fs := by injection hno
          have hlk := lookup_of_assocSet_eq _ _ _ hfs
          by_cases hk : k = k'
          · subst hk
            left
            rw [lset_cons2, lget_cons, member_assocSet_self, lget_nil]
            obtain ⟨a', fs', hcf⟩ := childFor_obj_exists (member (.obj a fs) k) k2'
            rw [hcf]
            obtain ⟨gs, hgs⟩ := lset_obj_shape a' fs' (k2' :: ks2') v' (by simp)
            rw [hgs]
            simp
          · right
            rw [lset_cons2, lset_single]
            have hl2 : lookupKey (assocSet fs k'
                (lset (childFor (member (.obj a fs) k') k2') (k2' :: ks2') v')) k =
                some .undefined := by
              rw [lookupKey_assocSet_other _ _ _ _ hk]
              exact hlk
            rw [assocSet_self_of_lookup _ _ _ hl2]
        | cons k2 ks2 =>
          rw [lset_cons2] at hno
          by_cases hx : (member (.obj a fs) k).isContainer
          case neg =>
            exfalso
            obtain ⟨a', fs', hcf⟩ := childFor_obj_exists (member (.obj a fs) k) k2
            rw [hcf] at hno
            obtain ⟨gs, hgs⟩ := lset_obj_shape a' fs' (k2 :: ks2) .undefined (by simp)
            rw [hgs] at hno
            have hfs : assocSet fs k (.obj a' gs) = fs := by injection hno
            have hlk := lookup_of_assocSet_eq _ _ _ hfs
            have hm : member (.obj a fs) k = .obj a' gs := by simp [member, hlk]
            rw [hm] at hx
            simp [JsValue.isContainer] at hx
          case pos =>
            obtain ⟨a', fs', hm'⟩ := container_obj_exists _ hx
            rw [childFor_of_container _ _ hx, hm'] at hno
            have hfs : assocSet fs k (lset (.obj a' fs') (k2 :: ks2) .undefined) = fs := by
              injection hno
            have hlk := lookup_of_assocSet_eq _ _ _ hfs
            have hmw : member (.obj a fs) k = lset (.obj a' fs') (k2 :: ks2) .undefined := by
              simp [member, hlk]
            have hno' : lset (.obj a' fs') (k2 :: ks2) .undefined = .obj a' fs' :=
              hmw.symm.trans hm'
            by_cases hk : k = k'
            · subst hk
              have h1' : lget (.obj a' fs') (k2' :: ks2') = .undefined := by
                rw [← hm']
                exact h1
              have hih := ih (.obj a' fs') (k2 :: ks2) v' hno' h1'
              obtain ⟨gs', hgs'⟩ := lset_obj_shape a' fs' (k2' :: ks2') v' (by simp)
              rw [lset_cons2, childFor_of_container _ _ hx, hm']
              cases hih with
              | inl hl =>
                left
                rw [lget_cons, member_assocSet_self]
                exact hl
              | inr hr =>
                right
                rw [lset_cons2, member_assocSet_self]
                have hwc : (lset (.obj a' fs') (k2' :: ks2') v').isContainer = true := by
                  rw [hgs']
                  rfl
                rw [childFor_of_container _ _ hwc, hr, assocSet_assocSet]
            · right
              rw [lset_cons2, lset_cons2, member_assocSet_other _ _ _ _ _ hk]
              rw [childFor_of_container _ _ hx, hm', hno']
              have hl2 : lookupKey (assocSet fs k'
                  (lset (childFor (member (.obj a fs) k') k2') (k2' :: ks2') v')) k =
                  some (.obj a' fs') := by
                rw [lookupKey_assocSet_other _ _ _ _ hk, hlk, hno']
              rw [assocSet_self_of_lookup _ _ _ hl2]

theorem setDefaultValue_stable_step (c dv : JsValue) (k : String) :
    setDefaultValue (setDefaultValue c dv k) dv k = setDefaultValue c dv k := by
  by_cases hu : (lget c (stringToPath k)).isUndefined
  case neg =>
    unfold setDefaultValue
    rw [if_neg hu, if_neg hu]
  case pos =>
    unfold setDefaultValue
    rw [if_pos hu]
    by_cases hc : c.isContainer
    · obtain ⟨a, fs, rfl⟩ := container_obj_exists c hc
      cases hp : stringToPath k with
      | nil =>
        rw [hp] at hu
        simp [lget_nil, JsValue.isUndefined] at hu
      | cons k0 ks0 =>
        rw [hp] at hu
        have hgs := lget_lset_self (k0 :: ks0) (by simp) a fs (member dv k)
        by_cases hv : (member dv k).isUndefined
        · have hcond : (lget (lset (.obj a fs) (k0 :: ks0) (member dv k))
              (k0 :: ks0)).isUndefined = true := by
            rw [hgs]
            exact hv
          rw [if_pos hcond]
          have hveq : member dv k = .undefined := (isUndefined_iff _).mp hv
          rw [hveq]
          exact lset_lset_same (k0 :: ks0) (.obj a fs) .undefined
        · have hcond : ¬(lget (lset (.obj a fs) (k0 :: ks0) (member dv k))
              (k0 :: ks0)).isUndefined = true := by
            rw [hgs]
            exact hv
          rw [if_neg hcond]
    · rw [lset_of_not_container c _ _ (by simpa using hc)]
      rw [if_pos hu]
      exact lset_of_not_container c _ _ (by simpa using hc)

theorem setDefaultValue_stable_preserved (c dv : JsValue) (k k' : String)
    (h : setDefaultValue c dv k = c) :
    setDefaultValue (setDefaultValue c dv k') dv k = setDefaultValue c dv k' := by
  by_cases hu' : (lget c (stringToPath k')).isUndefined
  case neg =>
    unfold setDefaultValue
    rw [if_neg hu']
    exact h
  case pos =>
    have h1 : lget c (stringToPath k') = .undefined := (isUndefined_iff _).mp hu'
    unfold setDefaultValue
    rw [if_pos hu']
    by_cases hu : (lget c (stringToPath k)).isUndefined
    case neg =>
      have h2 : lget c (stringToPath k) ≠ .undefined := fun he => hu (by rw [he]; rfl)
      have h3 := lget_lset_of_ne_undef (stringToPath k') c (stringToPath k)
        (member dv k') h1 h2
      rw [if_neg (fun hcond => h3 ((isUndefined_iff _).mp hcond))]
    case pos =>
      have hlc : lset c (stringToPath k) (member dv k) = c := by
        have hh := h
        unfold setDefaultValue at hh
        rw [if_pos hu] at hh
        exact hh
      by_cases hc : c.isContainer
      case neg =>
        rw [lset_of_not_container c (stringToPath k') _ (by simpa using hc)]
        rw [if_pos hu]
        exact hlc
      case pos =>
        obtain ⟨a, fs, rfl⟩ := container_obj_exists c hc
        cases hp : stringToPath k with
        | nil =>
          rw [hp] at hu
          simp [lget_nil, JsValue.isUndefined] at hu
        | cons k0 ks0 =>
          rw [hp] at hlc hu
          have hveq : member dv k = .undefined := by
            have hg : lget (.obj a fs) (k0 :: ks0) = member dv k := by
              conv_lhs => rw [← hlc]
              exact lget_lset_self (k0 :: ks0) (by simp) a fs (member dv k)
            have hvu : (member dv k).isUndefined = true := by
              rw [← hg]
              exact hu
            exact (isUndefined_iff _).mp hvu
          rw [hveq] at hlc ⊢
          have hL := lset_fixed_preserved (stringToPath k') (.obj a fs) (k0 :: ks0)
            (member dv k') hlc h1
          cases hL with
          | inl hl =>
            rw [if_neg (fun hcond => hl ((isUndefined_iff _).mp hcond))]
          | inr hr =>
            by_cases hcond : (lget (lset (.obj a fs) (stringToPath k') (member dv k'))
                (k0 :: ks0)).isUndefined
            · rw [if_pos hcond]
              exact hr
            · rw [if_neg hcond]

theorem applyDefaults_stable_foldl (dv : JsValue) (keys : List String) :
    ∀ (c : JsValue) (k : String), setDefaultValue c dv k = c →
      setDefaultValue (applyDefaults c dv keys) dv k = applyDefaults c dv keys := by
  induction keys with
  | nil => intro c k h; exact h
  | cons k0 rest ih =>
    intro c k h
    exact ih (setDefaultValue c dv k0) k (setDefaultValue_stable_preserved c dv k k0 h)

theorem applyDefaults_mem_stable (dv : JsValue) : ∀ (keys : List String) (c : JsValue)
    (k : String), k ∈ keys →
    setDefaultValue (applyDefaults c dv keys) dv k = applyDefaults c dv keys := by
  intro keys
  induction keys with
  | nil => intro c k hk; simp at hk
  | cons k0 rest ih =>
    intro c k hk
    rcases List.mem_cons.mp hk with rfl | hmem
    · exact applyDefaults_stable_foldl dv rest (setDefaultValue c dv k) k
        (setDefaultValue_stable_step c dv k)
    · exact ih (setDefaultValue c dv k0) k hmem

theorem applyDefaults_of_stable (dv : JsValue) : ∀ (keys : List String) (c : JsValue),
    (∀ k ∈ keys, setDefaultValue c dv k = c) → applyDefaults c dv keys = c := by
  intro keys
  induction keys with
  | nil => intro c _; rfl
  | cons k0 rest ih =>
    intro c h
    have h0 : setDefaultValue c dv k0 = c := h k0 (by simp)
    show applyDefaults (setDefaultValue c dv k0) dv rest = c
    rw [h0]
    exact ih c (fun k hk => h k (by simp [hk]))

theorem applyDefaults_idem (conf dv : JsValue) (keys : List String) :
    applyDefaults (applyDefaults conf dv keys) dv keys = applyDefaults conf dv keys :=
  applyDefaults_of_stable dv keys _ (fun k hk => applyDefaults_mem_stable dv keys conf k hk)

/-- Claim C7: the claim also asserts that a path at which a value is
already present is never overwritten.  Counterexample: in configuration
`{a: 5}` with defaults `{'a.b': 6, 'a': 99}`, writing the default for
`a.b` replaces the present non-container value `5` at the defaults key
`a` by the fresh container `{b: 6}`. -/
theorem c7_counterexample :
    setDefaultValues (.obj false [("a", .num 5)])
        (.obj false [("a.b", .num 6), ("a", .num 99)]) =
      .ok (.obj false [("a", .obj false [("b", .num 6)])]) ∧
    lget (.obj false [("a", .num 5)]) (stringToPath "a") = .num 5 ∧
    lget (.obj false [("a", .obj false [("b", .num 6)])]) (stringToPath "a") =
      .obj false [("b", .num 6)] ∧
    JsValue.obj false [("b", .num 6)] ≠ .num 5 :=
  ⟨rfl, rfl, rfl, fun h => JsValue.noConfusion h⟩

/-- Claim C7 (amended): default-value application is idempotent — one full
pass over any key list is a fixed point of a second identical pass, for
every configuration and defaults mapping; each key writes its default only
when its own path currently resolves to no value, and a key whose path
holds a value is left unchanged by its own processing (though intermediate
container creation for a different key's longer path may replace a present
non-container value on that path). -/
theorem c7_theorem :
    (∀ (conf dv : JsValue) (keys : List String),
      applyDefaults (applyDefaults conf dv keys) dv keys = applyDefaults conf dv keys) ∧
    (∀ (conf dv : JsValue) (key : String),
      (lget conf (stringToPath key)).isUndefined = false →
      setDefaultValue conf dv key = conf) ∧
    (∀ (conf : JsValue) (b : Bool) (fs : List (String × JsValue)),
      setDefaultValues conf (.obj b fs) =
        .ok (applyDefaults conf (.obj b fs) (fs.map Prod.fst))) := by
  refine ⟨applyDefaults_idem, ?_, ?_⟩
  · intro conf dv key h
    simp [setDefaultValue, h]
  · intro conf b fs
    rfl

/-- Claim C7 witness: a present value is untouched by its own key's
processing. -/
theorem c7_witness :
    setDefaultValue (.obj false [("name", .str "x")])
        (.obj false [("name", .str "y")]) "name" =
      .obj false [("name", .str "x")] :=
  c7_theorem.2.1 (.obj false [("name", .str "x")]) (.obj false [("name", .str "y")])
    "name" rfl


/-! Stage lemmas for the error-escape analysis of `load`. -/
theorem jsKeys_error_plain (v : JsValue) (e : JsError) (h : jsKeys v = .error e) :
    ∃ m, e = .plain m := by
  cases v <;> simp [jsKeys] at h
  · exact ⟨_, h.symm⟩
  · exact ⟨_, h.symm⟩

theorem getUnknowwnAttribute_error (v : JsValue) (ka : List String) (e : JsError)
    (h : getUnknowwnAttribute v ka = .error e) : ∃ m, e = .plain m := by
  unfold getUnknowwnAttribute at h
  cases hk : jsKeys v with
  | error e' =>
    rw [hk] at h
    simp at h
    exact h ▸ jsKeys_error_plain v e' hk
  | ok attrs =>
    rw [hk] at h
    simp at h

theorem validateOptionAttributes_error_ok (options : JsValue) (e : JsError)
    (h : validateOptionAttributes options = .error e) : escapedErrorOk e = true := by
  unfold validateOptionAttributes at h
  by_cases ht : options.typeofObject
  · rw [ht] at h
    simp only [Bool.not_true] at h
    rw [if_neg (by simp)] at h
    cases hg : getUnknowwnAttribute options knownAttributes with
    | error e' =>
      rw [hg] at h
      simp at h
      obtain ⟨m, hm⟩ := getUnknowwnAttribute_error options knownAttributes e' hg
      rw [← h, hm]
      rfl
    | ok oa =>
      rw [hg] at h
      cases oa with
      | none => simp at h
      | some a =>
        dsimp only at h
        by_cases ha : a.isEmpty = true
        · rw [ha] at h
          simp at h
        · rw [Bool.not_eq_true] at ha
          rw [ha] at h
          simp at h
          rw [← h]
          show (specTableMessage ("unknown option: " ++ a) ||
            (["options is not a object", "comment-json throws bad object",
              "comment-josn throws bad error"].contains ("unknown option: " ++ a))) = true
          have hpre : "unknown option: ".data.isPrefixOf ("unknown option: " ++ a).data = true := by
            rw [String.data_append]
            exact List.isPrefixOf_iff_prefix.mpr (List.prefix_append _ _)
          unfold specTableMessage
          rw [hpre]
          rfl
  · rw [if_pos (by simpa using ht)] at h
    simp at h
    rw [← h]
    rfl

theorem getStandardFilePath_error (env : Env) (cid : String) (e : JsError)
    (h : getStandardFilePath env cid none = .error e) :
    e = .loading "no configuration file" (some "./config.json") jsEmpty := by
  unfold getStandardFilePath at h
  dsimp only at h
  split_ifs at h <;>
    simp_all [show untildify env "./config.json" = "./config.json" from rfl]

theorem formatOptions_error_ok (env : Env) (options : JsValue) (e : JsError)
    (h : formatOptions env options = .error e) : escapedErrorOk e = true := by
  unfold formatOptions at h
  cases hva : validateOptionAttributes options with
  | error e' =>
    rw [hva] at h
    simp at h
    exact h ▸ validateOptionAttributes_error_ok options e' hva
  | ok u =>
    cases u
    rw [hva] at h
    dsimp only at h
    split_ifs at h <;> try (simp at h; rw [← h]; rfl)
    · -- all five checks passed; the final match errored
      rename_i h1 h2 h3 h4 h5
      revert h
      split
      · -- filePath = .undefined: the resolver ran
        cases hg : getStandardFilePath env
            (identityString (assignedField options "identity" .undefined)) none with
        | error e'' =>
          dsimp only
          intro h
          simp at h
          rw [← h, getStandardFilePath_error env _ e'' hg]
          rfl
        | ok p =>
          dsimp only
          intro h
          simp at h
      · intro h
        simp at h
      · intro h
        simp at h

theorem readFile_error_ok (env : Env) (p : String) (perm : Nat) (e : JsError)
    (h : readFile env p perm = .error e) : pipelineErrorOk e = true := by
  unfold readFile at h
  cases hs : env.statSync p with
  | err errno =>
    rw [hs] at h
    dsimp only at h
    split_ifs at h <;> (simp at h; rw [← h]; rfl)
  | ok isF mode =>
    rw [hs] at h
    dsimp only at h
    split_ifs at h <;> try (simp at h; rw [← h]; rfl)
    · -- the readFileSync call
      revert h
      cases hr : env.readFileSync p with
      | ok data => intro h; simp at h
      | err errno =>
        dsimp only
        split_ifs <;> (intro h; simp at h; rw [← h]; rfl)

theorem loadFile_error_cases (env : Env) (p : String) (perm : Nat) (e : JsError)
    (h : loadFile env p perm = .error e) :
    readFile env p perm = .error e ∨
      ∃ d, readFile env p perm = .ok d ∧ parseFileData env d = .error e := by
  unfold loadFile at h
  cases hr : readFile env p perm with
  | error e' =>
    rw [hr] at h
    simp at h
    subst h
    exact Or.inl rfl
  | ok d =>
    rw [hr] at h
    exact Or.inr ⟨d, rfl, h⟩

theorem parseFileData_error_ok (env : Env) (d : String) (e : JsError)
    (h : parseFileData env d = .error e) : pipelineErrorOk e = true := by
  unfold parseFileData at h
  cases hp : env.commentJsonParse d with
  | ok v => rw [hp] at h; simp at h
  | errNonError w =>
    rw [hp] at h
    simp at h
    rw [← h]
    rfl
  | errError l ln col =>
    rw [hp] at h
    simp only [Except.error.injEq] at h
    rw [← h]
    unfold throwJsonParsingError
    dsimp only
    split_ifs <;> rfl

theorem validateConfiguration_error_ok (env : Env) (conf schema : JsValue) (e : JsError)
    (h : validateConfiguration env conf schema = .error e) : pipelineErrorOk e = true := by
  unfold validateConfiguration at h
  cases ha : env.ajvValidate schema conf with
  | ret valid errors =>
    cases valid with
    | true => rw [ha] at h; simp at h
    | false =>
      rw [ha] at h
      dsimp only at h
      revert h
      unfold throwBadAttributeError
      split_ifs <;> (intro h; simp at h; rw [← h]; rfl)
  | throwMissingRef r s m =>
    rw [ha] at h
    dsimp only at h
    revert h
    unfold throwMissingSchemaRefereneError
    split_ifs <;> (intro h; simp at h; rw [← h]; rfl)
  | throwErr msg =>
    rw [ha] at h
    dsimp only at h
    revert h
    split_ifs <;> (intro h; simp at h; rw [← h]; rfl)

theorem setDefaultValues_error_plain (conf dv : JsValue) (e : JsError)
    (h : setDefaultValues conf dv = .error e) : pipelineErrorOk e = true := by
  unfold setDefaultValues at h
  cases hk : jsKeys dv with
  | error e' =>
    rw [hk] at h
    simp at h
    obtain ⟨m, hm⟩ := jsKeys_error_plain dv e' hk
    rw [← h, hm]
    rfl
  | ok keys =>
    rw [hk] at h
    simp at h

theorem throwLoadingError_ok (fp : String) (e : JsError)
    (h : pipelineErrorOk e = true) : escapedErrorOk (throwLoadingError fp e) = true := by
  cases e with
  | internal m labels =>
    show escapedErrorOk (.loading m (some fp) labels) = true
    unfold pipelineErrorOk at h
    simp at h
    rcases h with ((((rfl | rfl) | rfl) | rfl) | rfl) <;> rfl
  | loading m fp0 labels => exact h
  | fsError errno => rfl
  | plain m => rfl
  | missingRefError r s m => simp [pipelineErrorOk] at h

/-- Claim C1 (amended): every error leaving `load` is either a
`LoadingError` whose message is in the spec's table extended by the three
off-table messages the source can produce (`options is not a object`,
`comment-json throws bad object`, `comment-josn throws bad error`), or a
re-thrown non-loader exception (a filesystem error with `errno` other than
-2, or a bare `Error` from the validator adapter or from `Object.keys`);
an `InternalLoadingError` or `MissingRefError` never escapes, and on
success the caller receives the fully parsed, validated and defaulted
configuration. -/
theorem c1_theorem :
    ∀ (env : Env) (options : JsValue) (e : JsError),
      load env options = .error e → escapedErrorOk e = true := by
  intro env options e h
  unfold load at h
  cases hfo : formatOptions env options with
  | error e' =>
    rw [hfo] at h
    simp at h
    exact h ▸ formatOptions_error_ok env options e' hfo
  | ok fo =>
    rw [hfo] at h
    dsimp only at h
    cases hlf : loadFile env fo.filePath fo.filePermission with
    | error e1 =>
      rw [hlf] at h
      dsimp only at h
      simp only [Except.error.injEq] at h
      rw [← h]
      apply throwLoadingError_ok
      rcases loadFile_error_cases env fo.filePath fo.filePermission e1 hlf with hr | ⟨d, _, hpd⟩
      · exact readFile_error_ok env fo.filePath fo.filePermission e1 hr
      · exact parseFileData_error_ok env d e1 hpd
    | ok config =>
      rw [hlf] at h
      dsimp only at h
      cases hv : validateConfiguration env config fo.schema with
      | error e2 =>
        rw [hv] at h
        dsimp only at h
        simp only [Except.error.injEq] at h
        rw [← h]
        exact throwLoadingError_ok fo.filePath e2
          (validateConfiguration_error_ok env config fo.schema e2 hv)
      | ok u =>
        cases u
        rw [hv] at h
        dsimp only at h
        cases hsd : setDefaultValues config fo.defaultValues with
        | error e3 =>
          rw [hsd] at h
          dsimp only at h
          simp only [Except.error.injEq] at h
          rw [← h]
          exact throwLoadingError_ok fo.filePath e3
            (setDefaultValues_error_plain config fo.defaultValues e3 hsd)
        | ok c =>
          rw [hsd] at h
          simp at h

/-- Claim C1: the claim says every failure leaving `load` is a
`LoadingError` with a message from the fixed table.  Counterexample: a
non-object option bag produces a `LoadingError` whose message
`options is not a object` is outside the table, and an `EACCES` stat
failure (`errno` -13) escapes as the raw filesystem error, not as a
`LoadingError`. -/
theorem c1_counterexample :
    (load envMissing (.str "nonsense") =
        .error (.loading "options is not a object" none jsEmpty) ∧
      specTableMessage "options is not a object" = false) ∧
    load envEacces (.obj false [("identity", .str "foo"), ("filePath", .str "cfg.json")]) =
      .error (.fsError (-13)) :=
  ⟨⟨rfl, by decide⟩, rfl⟩

/-- Claim C1 witness: the amended theorem applied to the non-object bag. -/
theorem c1_witness :
    escapedErrorOk (.loading "options is not a object" none jsEmpty) = true :=
  c1_theorem envMissing (.str "nonsense")
    (.loading "options is not a object" none jsEmpty) rfl

end TropSeed
